import Mathlib

/-!
Shallow embedding of the webflow-pipedrive form-submission service.

Strings are modelled as lists of characters (`Str`); the JavaScript
`String.prototype.trim` is modelled by `trim` below.  Form data is an
ordered list of key/value pairs, as a `FormData` body is.  All network
collaborators (the reCAPTCHA verification service, the Supabase backup
table and the Pipedrive CRM) are modelled by an environment `Env` of
oracle answers, and every outbound call is recorded as a `Call` event so
that claims about which external calls occur can be stated as facts
about the emitted call trace.
-/

deriving instance DecidableEq for Except

abbrev Str := List Char

def ws (c : Char) : Bool := c.isWhitespace

/-- Model of the JavaScript string trim: drop whitespace from both ends. -/
def trim (s : Str) : Str := ((s.dropWhile ws).reverse.dropWhile ws).reverse

/-- A submitted form body: ordered key/value pairs. -/
abbrev FormData := List (Str × Str)

/-- Model of FormData.get: the first value stored under the key, if any. -/
def fdGet : FormData → Str → Option Str
  | [], _ => none
  | (k1, v) :: t, k => if k1 = k then some v else fdGet t k

/-- The fullName entry of a mapping is a single raw field name or a list. -/
inductive FullNameMapping where
  | single (field : Str)
  | multi (fields : List Str)
deriving DecidableEq, Repr

structure FieldMapping where
  email : Str
  fullName : FullNameMapping
  phone : Option Str
  jobTitle : Option Str
  company : Option Str
  message : Option Str
deriving DecidableEq, Repr

/-- The static FORM_FIELD_MAPPINGS table from form-submission.ts. -/
def FORM_FIELD_MAPPINGS (formName : Str) : Option FieldMapping :=
  if formName = "contact".toList then
    some ⟨"Email".toList, FullNameMapping.single "name".toList,
      some "Phone-Number".toList, some "Job-Title".toList,
      some "Company".toList, some "Message".toList⟩
  else if formName = "newsletter".toList then
    some ⟨"Email".toList,
      FullNameMapping.multi ["First-Name".toList, "Last-Name".toList],
      none, none, some "Company".toList, none⟩
  else none

/-- One constructor per throw site in the source; `Err.message` rebuilds
the exact thrown message string. -/
inductive Err where
  | noFieldMapping (formName : Str)
  | emailRequired (fieldName : Str)
  | nameRequired (fieldNames : Str)
  | recaptchaFailed (respStatus : Nat)
  | dbStorageFailed
  | personCreateFailed
  | leadFailed
  | personNameRequired
deriving DecidableEq, Repr

def Err.message : Err → Str
  | noFieldMapping f =>
      "No field mapping found for form: ".toList ++ f
        ++ ". Please add mapping to FORM_FIELD_MAPPINGS.".toList
  | emailRequired f =>
      "Email field '".toList ++ f ++ "' is required but not found or empty.".toList
  | nameRequired fs =>
      "Name field(s) '".toList ++ fs ++ "' are required but not found or empty.".toList
  | recaptchaFailed st =>
      "reCAPTCHA validation failed: \x7b\"data\":null,\"error\":null,\"status\":".toList
        ++ (Nat.repr st).toList
        ++ ",\"recaptcha_result\":\"success\"\x7d".toList
  | dbStorageFailed => "Database storage failed".toList
  | personCreateFailed => "Failed to create person in Pipedrive".toList
  | leadFailed => "Failed to get or create lead in Pipedrive".toList
  | personNameRequired => "Person name is required to create Pipedrive entry".toList

structure StandardizedFields where
  email : Str
  fullName : Str
  phone : Option Str
  jobTitle : Option Str
  company : Option Str
  message : Option Str
deriving DecidableEq, Repr

/-- Truthiness of `value?.trim()` on a possibly absent string. -/
def jsTrimTruthy : Option Str → Bool
  | none => false
  | some s => !(trim s).isEmpty

/-- The error message shows the field name or the comma-joined field list. -/
def nameFieldsLabel : FullNameMapping → Str
  | FullNameMapping.single f => f
  | FullNameMapping.multi fs => List.intercalate ", ".toList fs

/-- The fullName computation of standardizeFormData: for an array mapping,
map get over the fields, filter on truthy trim, map trim, join with a
space; for a single mapping, trim the field (empty when absent). -/
def resolveFullName (formData : FormData) : FullNameMapping → Str
  | FullNameMapping.multi fields =>
      List.intercalate " ".toList
        (((fields.map (fdGet formData)).filter jsTrimTruthy).map
          (fun o => trim (o.getD [])))
  | FullNameMapping.single f =>
      match fdGet formData f with
      | some s => trim s
      | none => []

/-- Optional-field extraction: include only when present and non-blank
after trimming. -/
def optField (formData : FormData) : Option Str → Option Str
  | none => none
  | some f =>
      match fdGet formData f with
      | some v => if trim v = [] then none else some (trim v)
      | none => none

/-- standardizeFormData from form-submission.ts. -/
def standardizeFormData (formData : FormData) (formName : Str) :
    Except Err StandardizedFields :=
  match FORM_FIELD_MAPPINGS formName with
  | none => Except.error (Err.noFieldMapping formName)
  | some mapping =>
    match fdGet formData mapping.email with
    | none => Except.error (Err.emailRequired mapping.email)
    | some email =>
      if trim email = [] then Except.error (Err.emailRequired mapping.email)
      else
        if resolveFullName formData mapping.fullName = [] then
          Except.error (Err.nameRequired (nameFieldsLabel mapping.fullName))
        else
          Except.ok ⟨trim email, resolveFullName formData mapping.fullName,
            optField formData mapping.phone,
            optField formData mapping.jobTitle,
            optField formData mapping.company,
            optField formData mapping.message⟩

/-- Modelled from the spec: resolution of fullName following the words of
section 4.1 — if the configured mapping is a list, fetch each named raw
field, trim, discard blanks, join surviving values with a single space,
in the configured order; if the mapping is a single name, trim that
field directly. -/
def specResolveFullName (formData : FormData) : FullNameMapping → Str
  | FullNameMapping.multi fields =>
      List.intercalate " ".toList
        (fields.filterMap (fun f =>
          match fdGet formData f with
          | some s => if trim s = [] then none else some (trim s)
          | none => none))
  | FullNameMapping.single f =>
      match fdGet formData f with
      | some s => trim s
      | none => []

/-! ## Environment and call trace -/

structure PersonInfo where
  id : Nat
  name : Str
deriving DecidableEq, Repr

/-- Oracle answers of the external collaborators for one request. -/
structure Env where
  googleSuccess : Bool
  backupOk : Bool
  personSearchItems : List PersonInfo
  personCreateData : Option PersonInfo
  leadSearchSuccess : Bool
  leadSearchItems : List (Option Nat)
  leadCreateRespId : Option Nat
  noteOk : Bool
deriving DecidableEq, Repr

/-- Payload of the addPerson call built by createNewPerson. -/
structure PersonPayload where
  name : Str
  emailValue : Str
  phone : Option Str
  ownerId : Nat
  visibleTo : Nat
deriving DecidableEq, Repr

/-- Query parameters of the lead search issued by findLeadByPersonId. -/
structure LeadSearchReq where
  term : Str
  fields : Str
  exactMatch : Bool
  start : Nat
  limit : Nat
  personId : Nat
deriving DecidableEq, Repr

inductive Call where
  | captchaVerify (token : Option Str)
  | backupWrite (data : List (Str × Str))
  | personSearch (email : Str)
  | personCreate (payload : PersonPayload)
  | leadSearch (req : LeadSearchReq)
  | leadCreate (title : Str) (personId : Nat) (visibleTo : Str)
  | noteCreate (leadId : Nat) (personId : Nat) (content : Str)
deriving DecidableEq, Repr

def Call.isCrm : Call → Bool
  | personSearch _ => true
  | personCreate _ => true
  | leadSearch _ => true
  | leadCreate _ _ _ => true
  | noteCreate _ _ _ => true
  | _ => false

def Call.isBackup : Call → Bool
  | backupWrite _ => true
  | _ => false

def Call.isLeadSearch : Call → Bool
  | leadSearch _ => true
  | _ => false

def Call.isLeadCreate : Call → Bool
  | leadCreate _ _ _ => true
  | _ => false

def Call.isPersonCreate : Call → Bool
  | personCreate _ => true
  | _ => false

def Call.isNote : Call → Bool
  | noteCreate _ _ _ => true
  | _ => false

/-! ## Spam filter -/

structure CaptchaResp where
  status : Nat
deriving DecidableEq, Repr

/-- validateCaptcha from the recaptcha lib: it forwards the token to the
Google verification endpoint, DISCARDS the answer, and unconditionally
returns a response with status 200. -/
def validateCaptcha (env : Env) (token : Option Str) : CaptchaResp × List Call :=
  let _googleAnswer := env.googleSuccess
  (⟨200⟩, [Call.captchaVerify token])

/-! ## Raw record built for backup storage -/

def recaptchaKey : Str := "g-recaptcha-response".toList
def formKey : Str := "form".toList
def sourceKey : Str := "source".toList

/-- JavaScript object property assignment on an insertion-ordered map:
replace the value in place when the key exists, else append. -/
def objSet : List (Str × Str) → Str → Str → List (Str × Str)
  | [], k, v => [(k, v)]
  | (k1, v1) :: t, k, v =>
      if k1 = k then (k, v) :: t else (k1, v1) :: objSet t k v

/-- JavaScript object property read. -/
def objGet : List (Str × Str) → Str → Option Str
  | [], _ => none
  | (k1, v) :: t, k => if k1 = k then some v else objGet t k

/-- One iteration of the formData.forEach loop that fills rawData. -/
def rawStep (m : List (Str × Str)) (e : Str × Str) : List (Str × Str) :=
  if e.1 ≠ recaptchaKey ∧ trim e.2 ≠ [] then objSet m e.1 (trim e.2) else m

/-- The raw record: starts from the form and source identifiers, then
stores every non-token field whose value is non-blank after trimming. -/
def buildRawData (formData : FormData) (formName formSource : Str) :
    List (Str × Str) :=
  formData.foldl rawStep [(formKey, formName), (sourceKey, formSource)]

/-- The trimmed value of the last qualifying occurrence of key `k` in the
submitted body; used to characterise `buildRawData`. -/
def lastStored (formData : FormData) (k : Str) : Option Str :=
  match formData with
  | [] => none
  | e :: t =>
      match lastStored t k with
      | some v => some v
      | none =>
          if e.1 = k ∧ e.1 ≠ recaptchaKey ∧ trim e.2 ≠ [] then some (trim e.2)
          else none

/-! ## Pipeline stages -/

/-- processFormSubmission: validate the captcha first, then standardize
and build the raw record. -/
def processFormSubmission (env : Env) (formData : FormData)
    (formName formSource : Str) :
    Except Err (List (Str × Str) × StandardizedFields) × List Call :=
  let token := fdGet formData recaptchaKey
  let res := validateCaptcha env token
  if res.1.status ≠ 200 then
    (Except.error (Err.recaptchaFailed res.1.status), res.2)
  else
    match standardizeFormData formData formName with
    | Except.error e => (Except.error e, res.2)
    | Except.ok standardized =>
        (Except.ok (buildRawData formData formName formSource, standardized), res.2)

/-- storeSubmissionInDatabase: one insert into the backup table; throws
when the insert reports an error. -/
def storeSubmissionInDatabase (env : Env) (data : List (Str × Str)) :
    Except Err Unit × List Call :=
  (if env.backupOk then Except.ok () else Except.error Err.dbStorageFailed,
   [Call.backupWrite data])

/-- findExistingPerson: search by email; the first returned item or null. -/
def findExistingPerson (env : Env) (email : Str) :
    Option PersonInfo × List Call :=
  (env.personSearchItems.head?, [Call.personSearch email])

/-- createNewPerson: guard on the trimmed name, then addPerson with the
hard-coded owner and visibility; throws when the response has no data. -/
def createNewPerson (env : Env) (data : StandardizedFields) :
    Except Err PersonInfo × List Call :=
  if trim data.fullName = [] then (Except.error Err.personNameRequired, [])
  else
    (match env.personCreateData with
     | some p => Except.ok p
     | none => Except.error Err.personCreateFailed,
     [Call.personCreate ⟨trim data.fullName, data.email, data.phone, 23676555, 3⟩])

/-- Shape of the lead search response body. -/
structure LeadSearchResp where
  success : Bool
  items : List (Option Nat)
deriving DecidableEq, Repr

/-- findLeadByPersonId: lead search with term, fields title, exact match,
start 0, limit 1, scoped to the person id. -/
def findLeadByPersonId (env : Env) (personId : Nat) (personName : Str) :
    LeadSearchResp × List Call :=
  (⟨env.leadSearchSuccess, env.leadSearchItems⟩,
   [Call.leadSearch ⟨personName, "title".toList, true, 0, 1, personId⟩])

/-- createLead: POST of title, person id and visibility "3"; the oracle
answer is the id carried by the response data, if any. -/
def createLead (env : Env) (title : Str) (personId : Nat) :
    Option Nat × List Call :=
  (env.leadCreateRespId, [Call.leadCreate title personId "3".toList])

/-- Union of the two response shapes getLead can return: data.id from a
create response, data.items from a search response. -/
structure LeadResp where
  dataId : Option Nat
  dataItems : List (Option Nat)
deriving DecidableEq, Repr

/-- getLead from the pipedrive lib: search first; when the search
succeeded and returned at least one item, return the search response,
otherwise create a lead and return the create response. -/
def getLead (env : Env) (title : Str) (personId : Nat) :
    LeadResp × List Call :=
  let found := findLeadByPersonId env personId title
  if found.1.success = true ∧ found.1.items ≠ [] then
    (⟨none, found.1.items⟩, found.2)
  else
    let created := createLead env title personId
    (⟨created.1, []⟩, found.2 ++ created.2)

/-- items?.[0]?.item?.id on the search items. -/
def headItemId : List (Option Nat) → Option Nat
  | [] => none
  | o :: _ => o

/-- JavaScript a || b on possibly missing numeric ids (0 is falsy). -/
def jsOr (a b : Option Nat) : Option Nat :=
  match a with
  | some n => if n = 0 then b else some n
  | none => b

/-- JavaScript truthiness of a possibly missing numeric id. -/
def idTruthy : Option Nat → Bool
  | some n => decide (n ≠ 0)
  | none => false

/-- getOrCreateLead: one getLead call, then extract
data?.id || data?.items?.[0]?.item?.id and throw when falsy. -/
def getOrCreateLead (env : Env) (person : PersonInfo) :
    Except Err Nat × List Call :=
  let res := getLead env person.name person.id
  let leadId := jsOr res.1.dataId (headItemId res.1.dataItems)
  (match leadId with
   | some n => if n = 0 then Except.error Err.leadFailed else Except.ok n
   | none => Except.error Err.leadFailed,
   res.2)

/-- Object.entries over a StandardizedFields value: email and fullName
first, then the optional fields in declaration order when present. -/
def fieldEntries (data : StandardizedFields) : List (Str × Str) :=
  [("email".toList, data.email), ("fullName".toList, data.fullName)]
    ++ (match data.phone with | some v => [("phone".toList, v)] | none => [])
    ++ (match data.jobTitle with | some v => [("jobTitle".toList, v)] | none => [])
    ++ (match data.company with | some v => [("company".toList, v)] | none => [])
    ++ (match data.message with | some v => [("message".toList, v)] | none => [])

/-- formatSubmissionNote: the HTML note body. -/
def formatSubmissionNote (data : StandardizedFields) (formName formSource : Str) : Str :=
  let noteFields := List.intercalate "<br>".toList
    ((fieldEntries data).map (fun e =>
      "<span><strong>".toList ++ e.1 ++ ":</strong> ".toList ++ e.2 ++ "</span>".toList))
  "\n        <b>Form Submission - Source: ".toList ++ formName
    ++ "</b><br>\n        <i>Submitted from: ".toList ++ formSource
    ++ "</i><br><br>\n        ".toList ++ noteFields ++ "\n    ".toList

/-- addNoteToLeadAndPerson: the note POST is wrapped in try/catch in the
source, so a failed POST (noteOk false) is logged and swallowed and the
function returns normally either way. -/
def addNoteToLeadAndPerson (env : Env) (leadId : Nat) (personId : Nat)
    (note : Str) : Unit × List Call :=
  if env.noteOk then ((), [Call.noteCreate leadId personId note])
  else ((), [Call.noteCreate leadId personId note])

/-- sendSubmissionToPipedrive: person lookup, create when absent, lead
lookup or creation, then the best-effort note. -/
def sendSubmissionToPipedrive (env : Env) (data : StandardizedFields)
    (formName formSource : Str) : Except Err Unit × List Call :=
  let fp := findExistingPerson env data.email
  let pr :=
    match fp.1 with
    | some p => (Except.ok p, ([] : List Call))
    | none => createNewPerson env data
  match pr.1 with
  | Except.error e => (Except.error e, fp.2 ++ pr.2)
  | Except.ok person =>
      let lr := getOrCreateLead env person
      match lr.1 with
      | Except.error e => (Except.error e, fp.2 ++ pr.2 ++ lr.2)
      | Except.ok leadId =>
          let note := formatSubmissionNote data formName formSource
          let nr := addNoteToLeadAndPerson env leadId person.id note
          (Except.ok (), fp.2 ++ pr.2 ++ lr.2 ++ nr.2)

/-! ## Endpoint envelope -/

structure ApiResponse where
  data : Option Str
  error : Option Str
  status : Nat
  recaptchaResult : Option Str
deriving DecidableEq, Repr

def successEnvelope : ApiResponse := ⟨none, none, 200, some "success".toList⟩

def errorEnvelope (e : Err) : ApiResponse := ⟨none, some e.message, 500, none⟩

/-- formSubmission: the endpoint handler; every stage runs inside one
try/catch that flattens any thrown error into the 500 envelope. -/
def formSubmission (env : Env) (formData : FormData)
    (formName formSource : Str) : ApiResponse × List Call :=
  match processFormSubmission env formData formName formSource with
  | (Except.error e, c1) => (errorEnvelope e, c1)
  | (Except.ok (rawData, standardized), c1) =>
      match storeSubmissionInDatabase env rawData with
      | (Except.error e, c2) => (errorEnvelope e, c1 ++ c2)
      | (Except.ok _, c2) =>
          match sendSubmissionToPipedrive env standardized formName formSource with
          | (Except.error e, c3) => (errorEnvelope e, c1 ++ c2 ++ c3)
          | (Except.ok _, c3) => (successEnvelope, c1 ++ c2 ++ c3)


/-- The exact query parameters getOrCreateLead passes to the lead search
for a given person. -/
def leadSearchReqOf (person : PersonInfo) : LeadSearchReq :=
  ⟨person.name, "title".toList, true, 0, 1, person.id⟩

/-- Concrete environment in which the verification service rejects the
token (googleSuccess false) while every other collaborator is healthy. -/
def spamRejectedEnv : Env :=
  ⟨false, true, [⟨7, "Jane Doe".toList⟩], none, true, [some 5], none, true⟩

/-- Concrete submission body carrying a token the service rejects. -/
def spamRejectedBody : FormData :=
  [("Email".toList, "a@x.com".toList), ("name".toList, "Jane Doe".toList),
   ("g-recaptcha-response".toList, "invalid-token".toList)]

/-- Environment in which the person search misses and every collaborator
answers healthily. -/
def healthyEnv : Env := ⟨true, true, [], none, true, [], none, true⟩

/-- Environment in which the person search finds Jane and the lead search
finds lead 5. -/
def foundPersonEnv : Env :=
  ⟨true, true, [⟨7, "Jane Doe".toList⟩], none, true, [some 5], none, true⟩

/-- Environment identical to foundPersonEnv except the backup insert
reports an error. -/
def backupFailEnv : Env :=
  ⟨true, false, [⟨7, "Jane Doe".toList⟩], none, true, [some 5], none, true⟩

/-- A plain valid submission body for the contact form. -/
def contactBody : FormData :=
  [("Email".toList, "a@x.com".toList), ("name".toList, "Jane Doe".toList)]

/-! ## Helper lemmas about trimming and joining -/

theorem trim_eq_nil_iff {s : Str} : trim s = [] ↔ ∀ c ∈ s, ws c := by
  unfold trim
  rw [List.reverse_eq_nil_iff, List.dropWhile_eq_nil_iff]
  constructor
  · intro h c hc
    have hsplit : s.takeWhile ws ++ s.dropWhile ws = s :=
      List.takeWhile_append_dropWhile ws s
    rw [← hsplit] at hc
    rcases List.mem_append.mp hc with h1 | h2
    · exact List.mem_takeWhile_imp h1
    · exact h c (List.mem_reverse.mpr h2)
  · intro h c hc
    exact h c ((List.dropWhile_sublist ws).subset (List.mem_reverse.mp hc))

theorem dropWhile_cons_not {α : Type} {p : α → Bool} {l : List α} {a : α}
    {t : List α} (h : l.dropWhile p = a :: t) : p a = false := by
  induction l with
  | nil => simp [List.dropWhile] at h
  | cons x xs ih =>
    rw [List.dropWhile_cons] at h
    by_cases hx : p x = true
    · rw [if_pos hx] at h
      exact ih h
    · rw [if_neg hx] at h
      cases h
      simpa using hx

theorem exists_mem_trim_not_ws {s : Str} (h : trim s ≠ []) :
    ∃ c ∈ trim s, ws c = false := by
  set m := (s.dropWhile ws).reverse.dropWhile ws with hm
  have hmne : m ≠ [] := by
    intro hnil
    apply h
    unfold trim
    rw [← hm, hnil, List.reverse_nil]
  obtain ⟨a, t, hat⟩ := List.exists_cons_of_ne_nil hmne
  refine ⟨a, ?_, dropWhile_cons_not (hm ▸ hat)⟩
  unfold trim
  rw [← hm, hat]
  simp

theorem mem_intercalate_of_mem {sep n : Str} {x : Char} {ls : List Str}
    (hx : x ∈ n) (hn : n ∈ ls) : x ∈ List.intercalate sep ls := by
  unfold List.intercalate
  induction ls with
  | nil => simp at hn
  | cons a t ih =>
    cases t with
    | nil =>
      simp only [List.mem_singleton] at hn
      subst hn
      simpa using hx
    | cons b t2 =>
      rw [List.intersperse_cons_cons, List.flatten_cons]
      rcases List.mem_cons.mp hn with rfl | hmem
      · exact List.mem_append.mpr (Or.inl hx)
      · refine List.mem_append.mpr (Or.inr ?_)
        rw [List.flatten_cons]
        refine List.mem_append.mpr (Or.inr ?_)
        exact ih hmem

theorem intercalate_nil (sep : Str) : List.intercalate sep [] = [] := rfl

/-! ## Refinement: the code resolution of fullName equals the one written
from the words of the spec -/

theorem filterJoin_aux (fd : FormData) (fields : List Str) :
    ((fields.map (fdGet fd)).filter jsTrimTruthy).map (fun o => trim (o.getD []))
      = fields.filterMap (fun f =>
          match fdGet fd f with
          | some s => if trim s = [] then none else some (trim s)
          | none => none) := by
  induction fields with
  | nil => rfl
  | cons f t ih =>
    simp only [List.map_cons, List.filterMap_cons]
    cases hf : fdGet fd f with
    | none => simp [jsTrimTruthy, ih]
    | some s =>
      by_cases hs : trim s = []
      · simp [jsTrimTruthy, hs, ih]
      · simp [jsTrimTruthy, hs, List.isEmpty_iff, ih]

theorem resolveFullName_eq_spec (fd : FormData) (mf : FullNameMapping) :
    resolveFullName fd mf = specResolveFullName fd mf := by
  cases mf with
  | single f => rfl
  | multi fields =>
    exact congrArg (List.intercalate " ".toList) (filterJoin_aux fd fields)

/-! ## Inversion of standardizeFormData -/

theorem standardizeFormData_ok {fd : FormData} {fn : Str}
    {r : StandardizedFields} (h : standardizeFormData fd fn = Except.ok r) :
    ∃ mapping, FORM_FIELD_MAPPINGS fn = some mapping ∧
      ∃ e, fdGet fd mapping.email = some e ∧ trim e ≠ [] ∧
        resolveFullName fd mapping.fullName ≠ [] ∧
        r = ⟨trim e, resolveFullName fd mapping.fullName,
             optField fd mapping.phone, optField fd mapping.jobTitle,
             optField fd mapping.company, optField fd mapping.message⟩ := by
  unfold standardizeFormData at h
  cases hm : FORM_FIELD_MAPPINGS fn with
  | none => simp only [hm] at h; exact Except.noConfusion h
  | some mapping =>
    simp only [hm] at h
    cases he : fdGet fd mapping.email with
    | none => simp only [he] at h; exact Except.noConfusion h
    | some e =>
      simp only [he] at h
      by_cases het : trim e = []
      · rw [if_pos het] at h; exact Except.noConfusion h
      · rw [if_neg het] at h
        by_cases hfn : resolveFullName fd mapping.fullName = []
        · rw [if_pos hfn] at h; exact Except.noConfusion h
        · rw [if_neg hfn] at h
          cases h
          exact ⟨mapping, rfl, e, he, het, hfn, rfl⟩

theorem standardizeFormData_name_error {fd : FormData} {fn : Str}
    {mapping : FieldMapping} {e : Str}
    (hm : FORM_FIELD_MAPPINGS fn = some mapping)
    (he : fdGet fd mapping.email = some e) (het : trim e ≠ [])
    (hname : resolveFullName fd mapping.fullName = []) :
    standardizeFormData fd fn =
      Except.error (Err.nameRequired (nameFieldsLabel mapping.fullName)) := by
  unfold standardizeFormData
  simp only [hm, he]
  rw [if_neg het, if_pos hname]

theorem trim_resolveFullName_ne_nil {fd : FormData} {mf : FullNameMapping}
    (h : resolveFullName fd mf ≠ []) : trim (resolveFullName fd mf) ≠ [] := by
  intro htr
  rw [trim_eq_nil_iff] at htr
  cases mf with
  | single f =>
    cases hf : fdGet fd f with
    | none => exact h (by simp [resolveFullName, hf])
    | some s =>
      have hres : resolveFullName fd (FullNameMapping.single f) = trim s := by
        simp [resolveFullName, hf]
      rw [hres] at h htr
      obtain ⟨c, hc, hcw⟩ := exists_mem_trim_not_ws h
      rw [htr c hc] at hcw
      cases hcw
  | multi fields =>
    have hres : resolveFullName fd (FullNameMapping.multi fields) =
        List.intercalate " ".toList
          (((fields.map (fdGet fd)).filter jsTrimTruthy).map
            (fun o => trim (o.getD []))) := rfl
    cases hn : ((fields.map (fdGet fd)).filter jsTrimTruthy).map
        (fun o => trim (o.getD [])) with
    | nil => exact h (by rw [hres, hn]; rfl)
    | cons n rest =>
      have hnmem : n ∈ ((fields.map (fdGet fd)).filter jsTrimTruthy).map
          (fun o => trim (o.getD [])) := by
        rw [hn]; exact List.mem_cons_self _ _
      obtain ⟨o, ho, hno⟩ := List.mem_map.mp hnmem
      have hot : jsTrimTruthy o = true := (List.mem_filter.mp ho).2
      cases o with
      | none => simp [jsTrimTruthy] at hot
      | some s =>
        have hts : trim s ≠ [] := by
          simpa [jsTrimTruthy, List.isEmpty_iff] using hot
        obtain ⟨c, hc, hcw⟩ := exists_mem_trim_not_ws hts
        have hcn : c ∈ n := by
          rw [← hno]
          simpa using hc
        have hcr : c ∈ resolveFullName fd (FullNameMapping.multi fields) := by
          rw [hres]
          exact mem_intercalate_of_mem hcn hnmem
        rw [htr c hcr] at hcw
        cases hcw

/-- C10: a canonical record produced by a successful standardization has a
fullName whose trim is still non-empty, so the blank-name guard inside
createNewPerson can never fire on it. -/
theorem c10_person_name_guard_unreachable (fd : FormData) (fn : Str)
    (r : StandardizedFields) (h : standardizeFormData fd fn = Except.ok r) :
    trim r.fullName ≠ [] ∧
    ∀ env : Env, (createNewPerson env r).1 ≠ Except.error Err.personNameRequired := by
  obtain ⟨mapping, hm, e, he, het, hfn, hrr⟩ := standardizeFormData_ok h
  have htrim : trim r.fullName ≠ [] := by
    rw [hrr]
    exact trim_resolveFullName_ne_nil hfn
  refine ⟨htrim, fun env => ?_⟩
  unfold createNewPerson
  rw [if_neg htrim]
  cases hpc : env.personCreateData <;> simp [hpc]

/-- C10 witness: a concrete successful standardization of the contact form
instantiating the guard-unreachability theorem. -/
theorem c10_person_name_guard_unreachable_witness :
    standardizeFormData
        [("Email".toList, "a@x.com".toList), ("name".toList, " Jane Doe ".toList)]
        "contact".toList =
      Except.ok ⟨"a@x.com".toList, "Jane Doe".toList, none, none, none, none⟩
    ∧ (trim ("Jane Doe".toList) ≠ [] ∧
       ∀ env : Env,
         (createNewPerson env
            ⟨"a@x.com".toList, "Jane Doe".toList, none, none, none, none⟩).1 ≠
           Except.error Err.personNameRequired) :=
  ⟨by decide,
   c10_person_name_guard_unreachable
     [("Email".toList, "a@x.com".toList), ("name".toList, " Jane Doe ".toList)]
     "contact".toList
     ⟨"a@x.com".toList, "Jane Doe".toList, none, none, none, none⟩
     (by decide)⟩

/-- C2: for a configured form, a successful standardization resolves
fullName exactly as the spec words it (fetch each named raw field in
order, trim, discard blanks, join with single spaces for a list mapping;
direct trim for a single mapping), the result is non-empty, and an empty
resolution makes standardization fail with the name ValidationError. -/
theorem c2_fullname_resolution (fd : FormData) (fn : Str)
    (mapping : FieldMapping) (hm : FORM_FIELD_MAPPINGS fn = some mapping) :
    (∀ r, standardizeFormData fd fn = Except.ok r →
        r.fullName = specResolveFullName fd mapping.fullName ∧ r.fullName ≠ [])
    ∧ (∀ e, fdGet fd mapping.email = some e → trim e ≠ [] →
        specResolveFullName fd mapping.fullName = [] →
        standardizeFormData fd fn =
          Except.error (Err.nameRequired (nameFieldsLabel mapping.fullName))) := by
  constructor
  · intro r hr
    obtain ⟨mapping2, hm2, e, he, het, hfn, hrr⟩ := standardizeFormData_ok hr
    rw [hm] at hm2
    injection hm2 with hmm
    subst hmm
    constructor
    · rw [hrr]
      exact resolveFullName_eq_spec fd mapping.fullName
    · rw [hrr]
      exact hfn
  · intro e he het hspec
    refine standardizeFormData_name_error hm he het ?_
    rw [resolveFullName_eq_spec]
    exact hspec

/-- C2 witness: the newsletter form with only the last name present
yields the trimmed last name alone, with no leading space. -/
theorem c2_fullname_resolution_witness :
    FORM_FIELD_MAPPINGS "newsletter".toList =
      some ⟨"Email".toList,
        FullNameMapping.multi ["First-Name".toList, "Last-Name".toList],
        none, none, some "Company".toList, none⟩
    ∧ ((∀ r, standardizeFormData
            [("Email".toList, "a@x.com".toList), ("Last-Name".toList, "  Doe ".toList)]
            "newsletter".toList = Except.ok r →
          r.fullName = specResolveFullName
              [("Email".toList, "a@x.com".toList), ("Last-Name".toList, "  Doe ".toList)]
              (FullNameMapping.multi ["First-Name".toList, "Last-Name".toList])
            ∧ r.fullName ≠ [])
        ∧ (∀ e, fdGet
              [("Email".toList, "a@x.com".toList), ("Last-Name".toList, "  Doe ".toList)]
              "Email".toList = some e → trim e ≠ [] →
            specResolveFullName
                [("Email".toList, "a@x.com".toList), ("Last-Name".toList, "  Doe ".toList)]
                (FullNameMapping.multi ["First-Name".toList, "Last-Name".toList]) = [] →
            standardizeFormData
                [("Email".toList, "a@x.com".toList), ("Last-Name".toList, "  Doe ".toList)]
                "newsletter".toList =
              Except.error (Err.nameRequired
                (nameFieldsLabel
                  (FullNameMapping.multi ["First-Name".toList, "Last-Name".toList]))))) :=
  ⟨by decide,
   c2_fullname_resolution
     [("Email".toList, "a@x.com".toList), ("Last-Name".toList, "  Doe ".toList)]
     "newsletter".toList
     ⟨"Email".toList,
       FullNameMapping.multi ["First-Name".toList, "Last-Name".toList],
       none, none, some "Company".toList, none⟩
     (by decide)⟩


/-! ## Shape lemmas for the pipeline stages -/

theorem processFormSubmission_error (env : Env) (fd : FormData) (fn fs : Str)
    (e : Err) (h : standardizeFormData fd fn = Except.error e) :
    processFormSubmission env fd fn fs =
      (Except.error e, [Call.captchaVerify (fdGet fd recaptchaKey)]) := by
  unfold processFormSubmission validateCaptcha
  simp [h]

theorem processFormSubmission_ok (env : Env) (fd : FormData) (fn fs : Str)
    (std : StandardizedFields) (h : standardizeFormData fd fn = Except.ok std) :
    processFormSubmission env fd fn fs =
      (Except.ok (buildRawData fd fn fs, std),
       [Call.captchaVerify (fdGet fd recaptchaKey)]) := by
  unfold processFormSubmission validateCaptcha
  simp [h]

theorem getOrCreateLead_calls_found (env : Env) (person : PersonInfo)
    (h : env.leadSearchSuccess = true ∧ env.leadSearchItems ≠ []) :
    (getOrCreateLead env person).2 = [Call.leadSearch (leadSearchReqOf person)] := by
  simp only [getOrCreateLead, getLead, findLeadByPersonId, if_pos h, leadSearchReqOf]

theorem getOrCreateLead_calls_notFound (env : Env) (person : PersonInfo)
    (h : ¬(env.leadSearchSuccess = true ∧ env.leadSearchItems ≠ [])) :
    (getOrCreateLead env person).2 =
      [Call.leadSearch (leadSearchReqOf person),
       Call.leadCreate person.name person.id "3".toList] := by
  simp only [getOrCreateLead, getLead, findLeadByPersonId, createLead, if_neg h,
    leadSearchReqOf]
  rfl

theorem getOrCreateLead_res_found (env : Env) (person : PersonInfo)
    (h : env.leadSearchSuccess = true ∧ env.leadSearchItems ≠ []) :
    (getOrCreateLead env person).1 =
      match headItemId env.leadSearchItems with
      | some n => if n = 0 then Except.error Err.leadFailed else Except.ok n
      | none => Except.error Err.leadFailed := by
  simp only [getOrCreateLead, getLead, findLeadByPersonId, if_pos h, jsOr]

theorem getOrCreateLead_res_notFound (env : Env) (person : PersonInfo)
    (h : ¬(env.leadSearchSuccess = true ∧ env.leadSearchItems ≠ [])) :
    (getOrCreateLead env person).1 =
      match env.leadCreateRespId with
      | some n => if n = 0 then Except.error Err.leadFailed else Except.ok n
      | none => Except.error Err.leadFailed := by
  simp only [getOrCreateLead, getLead, findLeadByPersonId, createLead, if_neg h, jsOr]
  cases hc : env.leadCreateRespId with
  | none => rfl
  | some n =>
    by_cases n0 : n = 0 <;> simp [headItemId, n0]

theorem addNoteToLeadAndPerson_eq (env : Env) (leadId personId : Nat)
    (note : Str) :
    addNoteToLeadAndPerson env leadId personId note =
      ((), [Call.noteCreate leadId personId note]) := by
  unfold addNoteToLeadAndPerson
  exact ite_self _

theorem sendPipedrive_found (env : Env) (data : StandardizedFields)
    (fn fs : Str) (p : PersonInfo) (rest : List PersonInfo)
    (h : env.personSearchItems = p :: rest) :
    sendSubmissionToPipedrive env data fn fs =
      (match (getOrCreateLead env p).1 with
       | Except.error e => Except.error e
       | Except.ok _ => Except.ok (),
       Call.personSearch data.email :: (getOrCreateLead env p).2
         ++ (match (getOrCreateLead env p).1 with
             | Except.ok leadId =>
                 [Call.noteCreate leadId p.id (formatSubmissionNote data fn fs)]
             | Except.error _ => [])) := by
  unfold sendSubmissionToPipedrive findExistingPerson
  rw [h]
  rcases hgl : (getOrCreateLead env p).1 with e | lid <;>
    simp [hgl, addNoteToLeadAndPerson_eq]

theorem sendPipedrive_noPerson (env : Env) (data : StandardizedFields)
    (fn fs : Str) (h : env.personSearchItems = []) :
    sendSubmissionToPipedrive env data fn fs =
      if trim data.fullName = [] then
        (Except.error Err.personNameRequired, [Call.personSearch data.email])
      else
        match env.personCreateData with
        | none =>
            (Except.error Err.personCreateFailed,
             [Call.personSearch data.email,
              Call.personCreate ⟨trim data.fullName, data.email, data.phone, 23676555, 3⟩])
        | some p =>
            (match (getOrCreateLead env p).1 with
             | Except.error e => Except.error e
             | Except.ok _ => Except.ok (),
             Call.personSearch data.email
               :: Call.personCreate ⟨trim data.fullName, data.email, data.phone, 23676555, 3⟩
               :: (getOrCreateLead env p).2
               ++ (match (getOrCreateLead env p).1 with
                   | Except.ok leadId =>
                       [Call.noteCreate leadId p.id (formatSubmissionNote data fn fs)]
                   | Except.error _ => [])) := by
  unfold sendSubmissionToPipedrive findExistingPerson createNewPerson
  rw [h]
  by_cases htr : trim data.fullName = []
  · simp [htr]
  · rw [if_neg htr]
    cases hpc : env.personCreateData with
    | none => simp [htr]
    | some p =>
        rw [if_neg htr]
        rcases hgl : (getOrCreateLead env p).1 with e | lid <;>
          simp [hgl, addNoteToLeadAndPerson_eq]

/-! ## Further lead and orchestration lemmas -/

theorem sendPipedrive_error_no_note (env : Env) (data : StandardizedFields)
    (fn fs : Str) (e : Err)
    (h : (sendSubmissionToPipedrive env data fn fs).1 = Except.error e) :
    ∀ l pid n, Call.noteCreate l pid n ∉ (sendSubmissionToPipedrive env data fn fs).2 := by
  intro l pid n hmem
  cases hps : env.personSearchItems with
  | cons p rest =>
    have hs := sendPipedrive_found env data fn fs p rest hps
    rw [hs] at h hmem
    rcases hgl : (getOrCreateLead env p).1 with e2 | lid
    · simp only [hgl] at hmem
      by_cases hl : env.leadSearchSuccess = true ∧ env.leadSearchItems ≠ []
      · rw [getOrCreateLead_calls_found env p hl] at hmem; simp at hmem
      · rw [getOrCreateLead_calls_notFound env p hl] at hmem; simp at hmem
    · simp only [hgl] at h
      exact absurd h (by simp)
  | nil =>
    have hs := sendPipedrive_noPerson env data fn fs hps
    rw [hs] at h hmem
    by_cases htr : trim data.fullName = []
    · rw [if_pos htr] at hmem
      simp at hmem
    · rw [if_neg htr] at h hmem
      cases hpc : env.personCreateData with
      | none => simp only [hpc] at hmem; simp at hmem
      | some p =>
        simp only [hpc] at h hmem
        rcases hgl : (getOrCreateLead env p).1 with e2 | lid
        · simp only [hgl] at hmem
          by_cases hl : env.leadSearchSuccess = true ∧ env.leadSearchItems ≠ []
          · rw [getOrCreateLead_calls_found env p hl] at hmem; simp at hmem
          · rw [getOrCreateLead_calls_notFound env p hl] at hmem; simp at hmem
        · simp only [hgl] at h
          exact absurd h (by simp)

/-! ## Endpoint-level shape lemmas -/

theorem formSubmission_std_error (env : Env) (fd : FormData) (fn fs : Str)
    (e : Err) (h : standardizeFormData fd fn = Except.error e) :
    formSubmission env fd fn fs =
      (errorEnvelope e, [Call.captchaVerify (fdGet fd recaptchaKey)]) := by
  unfold formSubmission
  rw [processFormSubmission_error env fd fn fs e h]

theorem formSubmission_backup_fail (env : Env) (fd : FormData) (fn fs : Str)
    (std : StandardizedFields) (h : standardizeFormData fd fn = Except.ok std)
    (hb : env.backupOk = false) :
    formSubmission env fd fn fs =
      (errorEnvelope Err.dbStorageFailed,
       [Call.captchaVerify (fdGet fd recaptchaKey),
        Call.backupWrite (buildRawData fd fn fs)]) := by
  unfold formSubmission
  rw [processFormSubmission_ok env fd fn fs std h]
  unfold storeSubmissionInDatabase
  rw [hb]
  simp

theorem formSubmission_crm (env : Env) (fd : FormData) (fn fs : Str)
    (std : StandardizedFields) (h : standardizeFormData fd fn = Except.ok std)
    (hb : env.backupOk = true) :
    formSubmission env fd fn fs =
      (match (sendSubmissionToPipedrive env std fn fs).1 with
       | Except.error e => errorEnvelope e
       | Except.ok _ => successEnvelope,
       Call.captchaVerify (fdGet fd recaptchaKey)
         :: Call.backupWrite (buildRawData fd fn fs)
         :: (sendSubmissionToPipedrive env std fn fs).2) := by
  unfold formSubmission
  rw [processFormSubmission_ok env fd fn fs std h]
  unfold storeSubmissionInDatabase
  rw [hb]
  rcases hsp : sendSubmissionToPipedrive env std fn fs with ⟨sres, c3⟩
  cases sres <;> simp [hsp]

/-! ## Raw backup record lemmas -/

theorem objGet_objSet_self (m : List (Str × Str)) (k v : Str) :
    objGet (objSet m k v) k = some v := by
  induction m with
  | nil => simp [objSet, objGet]
  | cons e t ih =>
    rcases e with ⟨ek, ev⟩
    by_cases he : ek = k
    · simp [objSet, objGet, he]
    · simp [objSet, objGet, he, ih]

theorem objGet_objSet_other (m : List (Str × Str)) (k1 v k : Str) (h : k1 ≠ k) :
    objGet (objSet m k1 v) k = objGet m k := by
  induction m with
  | nil => simp [objSet, objGet, h]
  | cons e t ih =>
    rcases e with ⟨ek, ev⟩
    by_cases he : ek = k1
    · subst he
      simp [objSet, objGet, h, ih]
    · by_cases hek : ek = k <;> simp [objSet, objGet, he, hek, ih, Ne.symm h]

theorem objGet_foldl_rawStep (fd : FormData) (m : List (Str × Str)) (k : Str) :
    objGet (fd.foldl rawStep m) k =
      match lastStored fd k with
      | some v => some v
      | none => objGet m k := by
  induction fd generalizing m with
  | nil => rfl
  | cons e t ih =>
    rw [List.foldl_cons, ih]
    simp only [lastStored]
    cases hl : lastStored t k with
    | some v => rfl
    | none =>
      by_cases hcond : e.1 = k ∧ e.1 ≠ recaptchaKey ∧ trim e.2 ≠ []
      · rw [if_pos hcond]
        unfold rawStep
        rw [if_pos ⟨hcond.2.1, hcond.2.2⟩, hcond.1]
        exact objGet_objSet_self m k (trim e.2)
      · rw [if_neg hcond]
        unfold rawStep
        by_cases hskip : e.1 ≠ recaptchaKey ∧ trim e.2 ≠ []
        · rw [if_pos hskip]
          have hk : e.1 ≠ k := fun hek => hcond ⟨hek, hskip⟩
          exact objGet_objSet_other m e.1 (trim e.2) k hk
        · rw [if_neg hskip]

/-! ## Claim theorems -/

/-- C1: the claim says a rejected challenge token yields the 500 spam
envelope with zero backup and CRM calls, but validateCaptcha discards the
answer of the verification service and always reports status 200, so a
submission the service rejects (googleSuccess false) still completes with
the success envelope, a backup write and CRM calls. -/
theorem c1_captcha_rejection_ignored :
    (∀ (env : Env) (t : Option Str), (validateCaptcha env t).1.status = 200)
    ∧ (formSubmission spamRejectedEnv spamRejectedBody
        "contact".toList "homepage".toList).1 = successEnvelope
    ∧ ((formSubmission spamRejectedEnv spamRejectedBody
        "contact".toList "homepage".toList).2.any Call.isBackup = true)
    ∧ ((formSubmission spamRejectedEnv spamRejectedBody
        "contact".toList "homepage".toList).2.any Call.isCrm = true) :=
  ⟨fun _ _ => rfl, by decide, by decide, by decide⟩

/-- C3: an unknown form name makes the request fail with the configuration
error (a constructor distinct from the validation errors) and the call
trace holds only the captcha verification: the backup store and the CRM
observe zero calls. -/
theorem c3_unknown_form_short_circuits (env : Env) (fd : FormData)
    (fn fs : Str) (h : FORM_FIELD_MAPPINGS fn = none) :
    (formSubmission env fd fn fs =
      (errorEnvelope (Err.noFieldMapping fn),
       [Call.captchaVerify (fdGet fd recaptchaKey)]))
    ∧ (∀ c ∈ (formSubmission env fd fn fs).2, c.isBackup = false ∧ c.isCrm = false)
    ∧ (∀ f, Err.noFieldMapping fn ≠ Err.emailRequired f
          ∧ Err.noFieldMapping fn ≠ Err.nameRequired f) := by
  have hstd : standardizeFormData fd fn = Except.error (Err.noFieldMapping fn) := by
    unfold standardizeFormData
    rw [h]
  have heq := formSubmission_std_error env fd fn fs (Err.noFieldMapping fn) hstd
  refine ⟨heq, ?_, ?_⟩
  · rw [heq]
    intro c hc
    simp at hc
    subst hc
    exact ⟨rfl, rfl⟩
  · intro f
    exact ⟨fun hne => Err.noConfusion hne, fun hne => Err.noConfusion hne⟩

/-- C3 witness: a concrete request with an unrecognized form name. -/
theorem c3_unknown_form_short_circuits_witness :
    FORM_FIELD_MAPPINGS "bogus".toList = none
    ∧ ((formSubmission healthyEnv [] "bogus".toList "home".toList =
        (errorEnvelope (Err.noFieldMapping "bogus".toList),
         [Call.captchaVerify (fdGet [] recaptchaKey)]))
       ∧ (∀ c ∈ (formSubmission healthyEnv [] "bogus".toList "home".toList).2,
           c.isBackup = false ∧ c.isCrm = false)
       ∧ (∀ f, Err.noFieldMapping "bogus".toList ≠ Err.emailRequired f
             ∧ Err.noFieldMapping "bogus".toList ≠ Err.nameRequired f)) :=
  ⟨by decide,
   c3_unknown_form_short_circuits healthyEnv [] "bogus".toList "home".toList
     (by decide)⟩

/-- C4: when the person search returns at least one item, the orchestrator
issues no create-contact call, and the lead search request carries exactly
the found contact name as term and the found contact id. -/
theorem c4_existing_contact_reused (env : Env) (data : StandardizedFields)
    (fn fs : Str) (p : PersonInfo) (rest : List PersonInfo)
    (h : env.personSearchItems = p :: rest) :
    (∀ pl, Call.personCreate pl ∉ (sendSubmissionToPipedrive env data fn fs).2)
    ∧ Call.leadSearch (leadSearchReqOf p) ∈
        (sendSubmissionToPipedrive env data fn fs).2 := by
  have hs := sendPipedrive_found env data fn fs p rest h
  constructor
  · intro pl hmem
    rw [hs] at hmem
    rcases hgl : (getOrCreateLead env p).1 with e | lid <;>
      simp only [hgl] at hmem <;>
      by_cases hl : env.leadSearchSuccess = true ∧ env.leadSearchItems ≠ [] <;>
      first
        | (rw [getOrCreateLead_calls_found env p hl] at hmem; simp at hmem)
        | (rw [getOrCreateLead_calls_notFound env p hl] at hmem; simp at hmem)
  · by_cases hl : env.leadSearchSuccess = true ∧ env.leadSearchItems ≠ []
    · rw [hs, getOrCreateLead_calls_found env p hl]; simp
    · rw [hs, getOrCreateLead_calls_notFound env p hl]; simp

/-- C4 witness: Jane already exists in the CRM; no contact creation call
is issued and her id and name flow into the lead search. -/
theorem c4_existing_contact_reused_witness :
    foundPersonEnv.personSearchItems = ⟨7, "Jane Doe".toList⟩ :: []
    ∧ ((∀ pl, Call.personCreate pl ∉
          (sendSubmissionToPipedrive foundPersonEnv
            ⟨"a@x.com".toList, "Jane Doe".toList, none, none, none, none⟩
            "contact".toList "homepage".toList).2)
       ∧ Call.leadSearch (leadSearchReqOf ⟨7, "Jane Doe".toList⟩) ∈
          (sendSubmissionToPipedrive foundPersonEnv
            ⟨"a@x.com".toList, "Jane Doe".toList, none, none, none, none⟩
            "contact".toList "homepage".toList).2) :=
  ⟨by decide,
   c4_existing_contact_reused foundPersonEnv
     ⟨"a@x.com".toList, "Jane Doe".toList, none, none, none, none⟩
     "contact".toList "homepage".toList ⟨7, "Jane Doe".toList⟩ [] (by decide)⟩

/-- C5: per submission the lead step performs exactly one lead search with
term the contact name, fields title, exact match, limit one, scoped to the
contact id; a found lead suppresses creation, a missed lookup triggers
exactly one creation with that title and contact id, and the step fails
with the lead CrmWriteError exactly when neither path yields a truthy id. -/
theorem c5_lead_lookup_then_create (env : Env) (person : PersonInfo) :
    ((getOrCreateLead env person).2.countP Call.isLeadSearch = 1
      ∧ Call.leadSearch (leadSearchReqOf person) ∈ (getOrCreateLead env person).2)
    ∧ (env.leadSearchSuccess = true ∧ env.leadSearchItems ≠ [] →
        (getOrCreateLead env person).2 = [Call.leadSearch (leadSearchReqOf person)])
    ∧ (¬(env.leadSearchSuccess = true ∧ env.leadSearchItems ≠ []) →
        (getOrCreateLead env person).2 =
          [Call.leadSearch (leadSearchReqOf person),
           Call.leadCreate person.name person.id "3".toList])
    ∧ (∀ e, (getOrCreateLead env person).1 = Except.error e → e = Err.leadFailed)
    ∧ (env.leadSearchSuccess = true ∧ env.leadSearchItems ≠ [] →
        ((getOrCreateLead env person).1 = Except.error Err.leadFailed ↔
          idTruthy (headItemId env.leadSearchItems) = false))
    ∧ (¬(env.leadSearchSuccess = true ∧ env.leadSearchItems ≠ []) →
        ((getOrCreateLead env person).1 = Except.error Err.leadFailed ↔
          idTruthy env.leadCreateRespId = false)) := by
  by_cases h : env.leadSearchSuccess = true ∧ env.leadSearchItems ≠ []
  · have hc := getOrCreateLead_calls_found env person h
    have hr := getOrCreateLead_res_found env person h
    refine ⟨⟨?_, ?_⟩, fun _ => hc, fun hn => absurd h hn, ?_, fun _ => ?_,
      fun hn => absurd h hn⟩
    · rw [hc]; simp [Call.isLeadSearch]
    · rw [hc]; simp
    · intro e he
      rw [hr] at he
      cases hh : headItemId env.leadSearchItems with
      | none => simp only [hh] at he; simp at he; exact he.symm
      | some n =>
        simp only [hh] at he
        by_cases n0 : n = 0
        · rw [if_pos n0] at he; simp at he; exact he.symm
        · rw [if_neg n0] at he; exact Except.noConfusion he
    · rw [hr]
      cases hh : headItemId env.leadSearchItems with
      | none => simp [idTruthy]
      | some n => by_cases n0 : n = 0 <;> simp [idTruthy, n0]
  · have hc := getOrCreateLead_calls_notFound env person h
    have hr := getOrCreateLead_res_notFound env person h
    refine ⟨⟨?_, ?_⟩, fun hp => absurd hp h, fun _ => hc, ?_, fun hp => absurd hp h,
      fun _ => ?_⟩
    · rw [hc]; simp [Call.isLeadSearch]
    · rw [hc]; simp
    · intro e he
      rw [hr] at he
      cases hh : env.leadCreateRespId with
      | none => simp only [hh] at he; simp at he; exact he.symm
      | some n =>
        simp only [hh] at he
        by_cases n0 : n = 0
        · rw [if_pos n0] at he; simp at he; exact he.symm
        · rw [if_neg n0] at he; exact Except.noConfusion he
    · rw [hr]
      cases hh : env.leadCreateRespId with
      | none => simp [idTruthy]
      | some n => by_cases n0 : n = 0 <;> simp [idTruthy, n0]

/-- C5 witness: with a missed lead search and a created lead id 9, exactly
one search happens and the search request carries the contact data. -/
theorem c5_lead_lookup_then_create_witness :
    (getOrCreateLead ⟨true, true, [], none, false, [], some 9, true⟩
        ⟨7, "Jane Doe".toList⟩).2.countP Call.isLeadSearch = 1
    ∧ Call.leadSearch (leadSearchReqOf ⟨7, "Jane Doe".toList⟩) ∈
        (getOrCreateLead ⟨true, true, [], none, false, [], some 9, true⟩
          ⟨7, "Jane Doe".toList⟩).2 :=
  (c5_lead_lookup_then_create ⟨true, true, [], none, false, [], some 9, true⟩
    ⟨7, "Jane Doe".toList⟩).1

/-- C6: the response never depends on the note POST outcome, and whenever
a note call appears in the trace the request returns the full success
envelope: a note failure is swallowed and never propagates. -/
theorem c6_note_failure_never_propagates (env : Env) (fd : FormData)
    (fn fs : Str) :
    (∀ b : Bool,
      formSubmission
        ⟨env.googleSuccess, env.backupOk, env.personSearchItems,
         env.personCreateData, env.leadSearchSuccess, env.leadSearchItems,
         env.leadCreateRespId, b⟩ fd fn fs
        = formSubmission env fd fn fs)
    ∧ (∀ l pid n, Call.noteCreate l pid n ∈ (formSubmission env fd fn fs).2 →
        (formSubmission env fd fn fs).1 = successEnvelope) := by
  constructor
  · intro b
    obtain ⟨g, bk, psi, pcd, lss, lsi, lcr, no⟩ := env
    unfold formSubmission processFormSubmission validateCaptcha
      storeSubmissionInDatabase sendSubmissionToPipedrive findExistingPerson
      createNewPerson getOrCreateLead getLead findLeadByPersonId createLead
      addNoteToLeadAndPerson
    simp only [ite_self]
  · intro l pid n hmem
    cases hstd : standardizeFormData fd fn with
    | error e =>
      rw [formSubmission_std_error env fd fn fs e hstd] at hmem
      simp at hmem
    | ok std =>
      cases hb : env.backupOk with
      | false =>
        rw [formSubmission_backup_fail env fd fn fs std hstd hb] at hmem
        simp at hmem
      | true =>
        rw [formSubmission_crm env fd fn fs std hstd hb] at hmem
        rw [formSubmission_crm env fd fn fs std hstd hb]
        cases hsp : (sendSubmissionToPipedrive env std fn fs).1 with
        | ok u => rfl
        | error e =>
          simp only [hsp] at hmem
          simp only [List.mem_cons] at hmem
          rcases hmem with h1 | h1 | h1
          · exact Call.noConfusion h1
          · exact Call.noConfusion h1
          · exact absurd h1 (sendPipedrive_error_no_note env std fn fs e hsp l pid n)

set_option maxRecDepth 10000 in
/-- C6 witness: a full run in which the note POST fails (noteOk false)
still emits the note call and returns the success envelope. -/
theorem c6_note_failure_never_propagates_witness :
    Call.noteCreate 5 7
        (formatSubmissionNote
          ⟨"a@x.com".toList, "Jane Doe".toList, none, none, none, none⟩
          "contact".toList "homepage".toList) ∈
      (formSubmission
        ⟨true, true, [⟨7, "Jane Doe".toList⟩], none, true, [some 5], none, false⟩
        contactBody "contact".toList "homepage".toList).2
    ∧ (formSubmission
        ⟨true, true, [⟨7, "Jane Doe".toList⟩], none, true, [some 5], none, false⟩
        contactBody "contact".toList "homepage".toList).1 = successEnvelope :=
  ⟨by decide,
   (c6_note_failure_never_propagates
      ⟨true, true, [⟨7, "Jane Doe".toList⟩], none, true, [some 5], none, false⟩
      contactBody "contact".toList "homepage".toList).2 5 7
     (formatSubmissionNote
       ⟨"a@x.com".toList, "Jane Doe".toList, none, none, none, none⟩
       "contact".toList "homepage".toList)
     (by decide)⟩

/-- C7: when the backup insert fails after a successful standardization,
the request ends with the 500 persistence envelope, the trace is exactly
the captcha verification followed by the backup write, and no CRM call of
any kind occurs. -/
theorem c7_backup_failure_stops_processing (env : Env) (fd : FormData)
    (fn fs : Str) (hb : env.backupOk = false)
    (hr : ∃ d, Call.backupWrite d ∈ (formSubmission env fd fn fs).2) :
    (formSubmission env fd fn fs =
      (errorEnvelope Err.dbStorageFailed,
       [Call.captchaVerify (fdGet fd recaptchaKey),
        Call.backupWrite (buildRawData fd fn fs)]))
    ∧ (errorEnvelope Err.dbStorageFailed).status = 500
    ∧ (errorEnvelope Err.dbStorageFailed).error =
        some (Err.message Err.dbStorageFailed)
    ∧ (∀ c ∈ (formSubmission env fd fn fs).2, c.isCrm = false) := by
  cases hstd : standardizeFormData fd fn with
  | error e =>
    obtain ⟨d, hd⟩ := hr
    rw [formSubmission_std_error env fd fn fs e hstd] at hd
    simp at hd
  | ok std =>
    have heq := formSubmission_backup_fail env fd fn fs std hstd hb
    refine ⟨heq, rfl, rfl, ?_⟩
    rw [heq]
    intro c hc
    simp at hc
    rcases hc with rfl | rfl <;> rfl

/-- C7 witness: a concrete valid submission whose backup insert fails. -/
theorem c7_backup_failure_stops_processing_witness :
    backupFailEnv.backupOk = false
    ∧ (∃ d, Call.backupWrite d ∈
        (formSubmission backupFailEnv contactBody
          "contact".toList "homepage".toList).2)
    ∧ ((formSubmission backupFailEnv contactBody
          "contact".toList "homepage".toList =
        (errorEnvelope Err.dbStorageFailed,
         [Call.captchaVerify (fdGet contactBody recaptchaKey),
          Call.backupWrite (buildRawData contactBody
            "contact".toList "homepage".toList)]))
       ∧ (errorEnvelope Err.dbStorageFailed).status = 500
       ∧ (errorEnvelope Err.dbStorageFailed).error =
           some (Err.message Err.dbStorageFailed)
       ∧ (∀ c ∈ (formSubmission backupFailEnv contactBody
            "contact".toList "homepage".toList).2, c.isCrm = false)) :=
  ⟨by decide,
   ⟨buildRawData contactBody "contact".toList "homepage".toList, by decide⟩,
   c7_backup_failure_stops_processing backupFailEnv contactBody
     "contact".toList "homepage".toList (by decide)
     ⟨buildRawData contactBody "contact".toList "homepage".toList, by decide⟩⟩

/-- C8: every response has a null data field and is exactly one of the two
envelopes: status 200 with null error and the success recaptcha marker, or
status 500 carrying the message of the thrown error and no marker. -/
theorem c8_uniform_response_envelope (env : Env) (fd : FormData)
    (fn fs : Str) :
    (formSubmission env fd fn fs).1.data = none
    ∧ (((formSubmission env fd fn fs).1.status = 200
         ∧ (formSubmission env fd fn fs).1.error = none
         ∧ (formSubmission env fd fn fs).1.recaptchaResult = some "success".toList)
       ∨ ((formSubmission env fd fn fs).1.status = 500
         ∧ (∃ e : Err, (formSubmission env fd fn fs).1.error = some e.message)
         ∧ (formSubmission env fd fn fs).1.recaptchaResult = none)) := by
  cases hstd : standardizeFormData fd fn with
  | error e =>
    rw [formSubmission_std_error env fd fn fs e hstd]
    exact ⟨rfl, Or.inr ⟨rfl, ⟨e, rfl⟩, rfl⟩⟩
  | ok std =>
    cases hb : env.backupOk with
    | false =>
      rw [formSubmission_backup_fail env fd fn fs std hstd hb]
      exact ⟨rfl, Or.inr ⟨rfl, ⟨Err.dbStorageFailed, rfl⟩, rfl⟩⟩
    | true =>
      rw [formSubmission_crm env fd fn fs std hstd hb]
      cases hsp : (sendSubmissionToPipedrive env std fn fs).1 with
      | error e => exact ⟨rfl, Or.inr ⟨rfl, ⟨e, rfl⟩, rfl⟩⟩
      | ok u => exact ⟨rfl, Or.inl ⟨rfl, rfl, rfl⟩⟩

/-- C9 counterexample: a submitted non-blank field literally named form
overwrites the form identifier in the stored raw record, so the record
does not keep the form identifier "contact" alongside the field. -/
theorem c9_counterexample :
    objGet (buildRawData
        [("form".toList, " x ".toList), ("Email".toList, "a@x.com".toList),
         ("name".toList, "Jane".toList)]
        "contact".toList "homepage".toList) formKey = some "x".toList
    ∧ "x".toList ≠ "contact".toList
    ∧ Call.backupWrite (buildRawData
        [("form".toList, " x ".toList), ("Email".toList, "a@x.com".toList),
         ("name".toList, "Jane".toList)]
        "contact".toList "homepage".toList)
        ∈ (formSubmission
            ⟨true, true, [⟨7, "Jane".toList⟩], none, true, [some 5], none, true⟩
            [("form".toList, " x ".toList), ("Email".toList, "a@x.com".toList),
             ("name".toList, "Jane".toList)]
            "contact".toList "homepage".toList).2 := by decide

/-- C9 amended: a lookup in the stored raw record returns the trimmed
value of the last submitted non-token field with that key that is
non-blank after trimming; keys with no such field fall back to the form
and source identifiers and are otherwise absent, so a submitted field
named form or source overwrites the identifier; and the record handed to
the backup write is always buildRawData of the body, independent of the
field-mapping configuration. -/
theorem c9_raw_record_contents (fd : FormData) (fn fs k : Str) :
    (objGet (buildRawData fd fn fs) k =
      match lastStored fd k with
      | some v => some v
      | none =>
          if formKey = k then some fn
          else if sourceKey = k then some fs
          else none)
    ∧ (∀ (env : Env) (raw : List (Str × Str)) (std : StandardizedFields)
          (calls : List Call),
        processFormSubmission env fd fn fs = (Except.ok (raw, std), calls) →
        raw = buildRawData fd fn fs) := by
  constructor
  · unfold buildRawData
    rw [objGet_foldl_rawStep]
    cases lastStored fd k with
    | some v => rfl
    | none => simp [objGet]
  · intro env raw std calls h
    cases hstd : standardizeFormData fd fn with
    | error e =>
      rw [processFormSubmission_error env fd fn fs e hstd] at h
      simp at h
    | ok std2 =>
      rw [processFormSubmission_ok env fd fn fs std2 hstd] at h
      simp at h
      exact h.1.1.symm
